import Mathlib

/-
  Verification of the transactional storage core of erdb
  (src/concurrency/mod.rs, src/storage/heap/table.rs, src/storage/heap/header.rs).

  The Rust code is shallowly embedded: machine integers (u8/u32) become Nat with
  explicit bounds where they matter, the transaction-log pages become a function
  from page number and byte index to byte value, and fallible code returns
  Option (where `none` models a `panic!`/`unreachable!`).  PAGE_SIZE (defined in
  src/common.rs, which is not part of the sources here) is threaded through as an
  explicit parameter `ps`, so every theorem holds for every page size.

  The file is laid out as definitions first, theorems second.
-/

namespace Erdb

/-- Transaction status, the 2-bit enum of concurrency/mod.rs. -/
inductive TransactionStatus where
  | Invalid
  | InProgress
  | Aborted
  | Committed
  deriving DecidableEq, Repr

/-- Models `impl From<u8> for TransactionStatus` (concurrency/mod.rs lines 55-65).
The `_ => unreachable!()` arm is modelled as `none`. -/
def TransactionStatus.fromBits : Nat → Option TransactionStatus
  | 0 => some .Invalid
  | 1 => some .InProgress
  | 2 => some .Aborted
  | 3 => some .Committed
  | _ + 4 => none

/-- The state owned by `TransactionManager` that status queries read:
the global alive set, the `next_tid` counter, and the transaction-log table
(its highest allocated page number and the bytes of each page). -/
structure TransactionManagerState where
  aliveTids : Nat → Bool
  nextTid : Nat
  highestPageNo : Nat
  logPage : Nat → Nat → Nat

/-- Models `TransactionManager::get_page` combined with the byte read of
`get_transaction_status`: the byte holding `tid`'s status bits.  When the tid's
page is past the highest allocated page, `get_page` allocates a zero-filled
page, so the byte read is 0. -/
def logByte (ps : Nat) (m : TransactionManagerState) (tid : Nat) : Nat :=
  let page := tid / 4 / ps + 1
  if m.highestPageNo < page then 0 else m.logPage page (tid / 4 % ps)

/-- Models `TransactionManager::get_transaction_status` (concurrency/mod.rs
lines 372-393).  `none` models the `unreachable!()` panic of the u8 conversion;
buffer-pool exhaustion is an environment failure and is not modelled. -/
def get_transaction_status (ps : Nat) (m : TransactionManagerState) (tid : Nat) :
    Option TransactionStatus :=
  if m.aliveTids tid then some .InProgress
  else if m.nextTid ≤ tid then some .Invalid
  else TransactionStatus.fromBits ((logByte ps m tid >>> (tid % 4 * 2)) &&& 3)

/-- The (total) status a lookup returns; by `get_transaction_status_isSome` the
`Option` layer never produces `none`, so this is the value the code computes. -/
def getStatusD (ps : Nat) (m : TransactionManagerState) (tid : Nat) : TransactionStatus :=
  (get_transaction_status ps m tid).getD .Invalid

/-- Formalisation of claim C3's status lookup, following the claim's own
words: `InProgress` when alive, `Invalid` when `tid ≥ next_tid`, otherwise the
status decoded from the two bits at bit offset `(tid mod 4) * 2` of byte
`(tid div 4) mod PAGE_SIZE` of log page `(tid div 4) div PAGE_SIZE + 1`, a
lazily allocated zero page reading as zero bytes. -/
def get_status_claim (ps : Nat) (m : TransactionManagerState) (tid : Nat) : TransactionStatus :=
  if m.aliveTids tid then .InProgress
  else if m.nextTid ≤ tid then .Invalid
  else
    let page := tid / 4 / ps + 1
    let byte := if m.highestPageNo < page then 0 else m.logPage page (tid / 4 % ps)
    match byte / 2 ^ (tid % 4 * 2) % 4 with
    | 0 => .Invalid
    | 1 => .InProgress
    | 2 => .Aborted
    | _ => .Committed

/-- A manager state whose log pages are all zero: nothing was ever written to
the transaction log, tid 1 is not alive, and two tids have been handed out. -/
def mgrZeroLog : TransactionManagerState :=
  { aliveTids := fun _ => false
    nextTid := 2
    highestPageNo := 1
    logPage := fun _ _ => 0 }

/-- A concrete state whose log byte 0 of page 1 is `0b1100`: tid 1 committed,
as the bootstrap transaction's commit writes it. -/
def mgrBootstrapCommitted : TransactionManagerState :=
  { aliveTids := fun _ => false
    nextTid := 2
    highestPageNo := 1
    logPage := fun _ _ => 12 }

/-- Models `TransactionManager::load_transaction_log` (concurrency/mod.rs lines
324-355): given the highest allocated log page number and that page's bytes, the
value stored into `next_tid`.  The fold mirrors the source's
`for (offset, byte) in data.iter().enumerate()` loop, including its byte-offset
arithmetic. -/
def load_next_tid (ps : Nat) (highestPageNo : Nat) (data : List Nat) : Nat :=
  let tidOffset := (highestPageNo - 1) * ps * 4
  let highestTid := data.enum.foldl
    (fun acc p =>
      if 64 ≤ p.2 then p.1 + tidOffset + 3
      else if 16 ≤ p.2 then p.1 + tidOffset + 2
      else if 4 ≤ p.2 then p.1 + tidOffset + 1
      else if 0 < p.2 then p.1 + tidOffset
      else acc) tidOffset
  highestTid + 1

/-- The claim's (and spec's) intended value: the highest tid whose two status
bits on the last page are non-zero.  Byte `b` at offset `o` of page `p` holds
the statuses of tids `(p-1)*PAGE_SIZE*4 + 4*o` through `+3`, with tid `t`'s bits
at bit offset `(t mod 4)*2`, so the highest recorded tid of a non-zero byte at
offset `o` is `(p-1)*PAGE_SIZE*4 + 4*o + k` with `k` the highest non-zero
2-bit group. -/
def highest_status_tid (ps : Nat) (highestPageNo : Nat) (data : List Nat) : Nat :=
  let tidOffset := (highestPageNo - 1) * ps * 4
  data.enum.foldl
    (fun acc p =>
      if 64 ≤ p.2 then 4 * p.1 + tidOffset + 3
      else if 16 ≤ p.2 then 4 * p.1 + tidOffset + 2
      else if 4 ≤ p.2 then 4 * p.1 + tidOffset + 1
      else if 0 < p.2 then 4 * p.1 + tidOffset
      else acc) tidOffset

/-- Isolation level of a transaction. -/
inductive IsolationLevel where
  | ReadCommitted
  | RepeatableRead
  deriving DecidableEq, Repr

/-- How a transaction ended (the `end` cell of `Transaction`). -/
inductive TransactionEnd where
  | None
  | Committed
  | Aborted
  | ExpectedRollback
  deriving DecidableEq, Repr

/-- The per-session state of `Transaction` (concurrency/mod.rs lines 67-82):
its tid, isolation level, snapshot (`tid_max` and the captured alive set),
command counter, auto-commit flag and end cell.  The `manager` back-reference
is passed separately as a `TransactionManagerState`. -/
structure Transaction where
  tid : Nat
  isolationLevel : IsolationLevel
  tidMax : Nat
  commandId : Nat
  autoCommit : Bool
  endState : TransactionEnd
  aliveTids : Nat → Bool

/-- Errors surfaced by the transaction-handle operations.  The source returns
`anyhow` errors with descriptive messages; only their identity matters here. -/
inductive TxError where
  | alreadyCommitted
  | cannotCommitAborted
  | rollbackExpected
  | alreadyAborted
  | managerFailed
  | tooManyCommands
  deriving DecidableEq, Repr

/-- Models `Transaction::commit` (concurrency/mod.rs lines 108-124).  `mgrOk`
is whether `TransactionManager::commit` (the log write) succeeds; if it fails,
the `?` propagates before the end cell is set.  The returned pair is the
transaction after the call and the error, if any: on every error path the
transaction is returned unchanged, because the source mutates the end cell only
on success. -/
def Transaction.commit (mgrOk : Bool) (t : Transaction) : Transaction × Option TxError :=
  match t.endState with
  | .None =>
    if mgrOk then ({ t with endState := .Committed }, none)
    else (t, some .managerFailed)
  | .Committed => (t, some .alreadyCommitted)
  | .Aborted => (t, some .cannotCommitAborted)
  | .ExpectedRollback => (t, some .rollbackExpected)

/-- Models `Transaction::abort` (concurrency/mod.rs lines 126-139). -/
def Transaction.abort (mgrOk : Bool) (t : Transaction) : Transaction × Option TxError :=
  match t.endState with
  | .None | .ExpectedRollback =>
    if mgrOk then ({ t with endState := .Aborted }, none)
    else (t, some .managerFailed)
  | .Committed => (t, some .cannotCommitAborted)
  | .Aborted => (t, some .alreadyAborted)

/-- A fresh transaction, used as a witness state. -/
def txFresh : Transaction :=
  { tid := 2
    isolationLevel := .ReadCommitted
    tidMax := 3
    commandId := 0
    autoCommit := false
    endState := .None
    aliveTids := fun t => t == 2 }

/-- An already-committed transaction, used as a witness state. -/
def txCommitted : Transaction :=
  { txFresh with endState := TransactionEnd.Committed }

/-- Models `TransactionManager::refresh_transaction` (concurrency/mod.rs lines
252-267): fail if `command_id` is already `u8::MAX = 255`, otherwise increment
it; under `ReadCommitted` additionally re-snapshot the alive set and `tid_max`
from the manager.  On the error path the transaction is returned unchanged,
because the source returns before mutating anything. -/
def refresh_transaction (m : TransactionManagerState) (t : Transaction) :
    Transaction × Option TxError :=
  if t.commandId = 255 then (t, some .tooManyCommands)
  else
    let t1 := { t with commandId := t.commandId + 1 }
    if t1.isolationLevel = IsolationLevel.RepeatableRead then (t1, none)
    else ({ t1 with aliveTids := m.aliveTids, tidMax := m.nextTid }, none)

/-- `n` successive `refresh_transaction` calls; once a call errors, the state
and error are kept as they were. -/
def refresh_iter (m : TransactionManagerState) (t : Transaction) :
    Nat → Transaction × Option TxError
  | 0 => (t, none)
  | n + 1 =>
    match refresh_iter m t n with
    | (t', some e) => (t', some e)
    | (t', none) => refresh_transaction m t'

/-- Models `Transaction::is_tuple_visible` (concurrency/mod.rs lines 162-210).
The `Option` layer propagates the (never occurring) decoding panic of
`get_transaction_status`, mirroring the source's `Result<bool>`. -/
def is_tuple_visible (ps : Nat) (m : TransactionManagerState) (t : Transaction)
    (insertTid commandId deleteTid : Nat) : Option Bool :=
  if t.tidMax ≤ insertTid then some false
  else
    (get_transaction_status ps m insertTid).bind fun s =>
      match s with
      | .Invalid | .Aborted => some false
      | .InProgress =>
        if insertTid = t.tid then
          some (decide (deleteTid = 0) && decide (commandId < t.commandId))
        else some false
      | .Committed =>
        if t.aliveTids insertTid then some false
        else if deleteTid = 0 ∨ t.tidMax ≤ deleteTid then some true
        else
          (get_transaction_status ps m deleteTid).bind fun s2 =>
            match s2 with
            | .Invalid | .Aborted => some true
            | .InProgress => some (decide (deleteTid ≠ t.tid))
            | .Committed => some (t.aliveTids deleteTid)

/-- Formalisation of claim C1's MVCC case analysis, written from the claim's
words: not visible outside the snapshot; `Invalid`/`Aborted` inserters never
visible; `InProgress` inserters visible only for the transaction's own earlier
commands on undeleted tuples; `Committed` inserters visible unless the inserter
was alive at snapshot time, with the deleter's status deciding the rest. -/
def is_visible_claim (ps : Nat) (m : TransactionManagerState) (t : Transaction)
    (insertTid commandId deleteTid : Nat) : Bool :=
  if t.tidMax ≤ insertTid then false
  else
    match getStatusD ps m insertTid with
    | .Invalid | .Aborted => false
    | .InProgress =>
      decide (insertTid = t.tid) && decide (deleteTid = 0) && decide (commandId < t.commandId)
    | .Committed =>
      if t.aliveTids insertTid then false
      else if deleteTid = 0 ∨ t.tidMax ≤ deleteTid then true
      else
        match getStatusD ps m deleteTid with
        | .Invalid | .Aborted => true
        | .InProgress => decide (deleteTid ≠ t.tid)
        | .Committed => t.aliveTids deleteTid

/-- The heap tuple header of storage/heap/header.rs.  The null bitmap is the
`MAX_NULL_BITS_SIZE` byte array, modelled as a function from byte index to
byte value (zero beyond the meaningful bytes); `column_count` is the
not-serialized bookkeeping field. -/
@[ext]
structure HeapTupleHeader where
  insert_tid : Nat
  delete_tid : Nat
  command_id : Nat
  tuple_id : Nat × Nat
  flags : Nat
  user_data_start : Nat
  null_bitmap : Nat → Nat
  column_count : Nat

/-- Models `has_null` (header.rs lines 33-35): bit 0 of the flags byte. -/
def has_null (flags : Nat) : Bool := (flags &&& 1) ≠ 0

/-- Models `null_bitmap_size` (header.rs lines 38-40). -/
def null_bitmap_size (columnCount : Nat) : Nat := (columnCount - 1) / 8 + 1

/-- Modelled from the spec: `Serializer::serialize_u32` lives in
storage/utils.rs, which is not among the sources; per the header field-width
table a u32 occupies 4 bytes, written least-significant byte first. -/
def serU32 (x : Nat) : List Nat :=
  [x % 256, x / 256 % 256, x / 65536 % 256, x / 16777216 % 256]

/-- Modelled from the spec: `Deserializer::deserialize_u32`, the inverse
4-byte read at a given position (missing positions read as 0). -/
def deU32 (bytes : List Nat) (pos : Nat) : Nat :=
  bytes.getD pos 0 + 256 * bytes.getD (pos + 1) 0 + 65536 * bytes.getD (pos + 2) 0 +
    16777216 * bytes.getD (pos + 3) 0

/-- Models `HeapTupleHeader::serialize` (header.rs lines 113-126): the 16
constant bytes (insert_tid, delete_tid, command_id, tuple_id as page_no and
slot, flags, user_data_start) followed by the null bitmap's meaningful bytes
iff the has-nulls flag is set. -/
def HeapTupleHeader.serialize (h : HeapTupleHeader) : List Nat :=
  serU32 h.insert_tid ++ serU32 h.delete_tid ++ [h.command_id] ++
    serU32 h.tuple_id.1 ++ [h.tuple_id.2, h.flags, h.user_data_start] ++
    (if has_null h.flags then (List.range (null_bitmap_size h.column_count)).map h.null_bitmap
     else [])

/-- Models `HeapTupleHeader::from_bytes` (header.rs lines 54-79): sequential
reads of the 16 constant bytes, then — only when the parsed flags have the
has-nulls bit — a copy of `null_bitmap_size column_count` bitmap bytes into the
zero-initialised bitmap array. -/
def HeapTupleHeader.from_bytes (bytes : List Nat) (columnCount : Nat) : HeapTupleHeader :=
  { insert_tid := deU32 bytes 0
    delete_tid := deU32 bytes 4
    command_id := bytes.getD 8 0
    tuple_id := (deU32 bytes 9, bytes.getD 13 0)
    flags := bytes.getD 14 0
    user_data_start := bytes.getD 15 0
    null_bitmap := fun i =>
      if has_null (bytes.getD 14 0) ∧ i < null_bitmap_size columnCount then bytes.getD (16 + i) 0
      else 0
    column_count := columnCount }

/-- A well-formed header for a given column count: every serialized field fits
its width (u32 fields below 2^32, byte fields below 256), the bookkeeping
column count matches and is at least 1, and the null bitmap is zero outside its
meaningful bytes — in particular everywhere when the has-nulls flag is unset,
since then no bitmap bytes are serialized at all. -/
def HeapTupleHeader.wf (h : HeapTupleHeader) (columnCount : Nat) : Prop :=
  h.column_count = columnCount ∧ 1 ≤ columnCount ∧
  h.insert_tid < 4294967296 ∧ h.delete_tid < 4294967296 ∧ h.command_id < 256 ∧
  h.tuple_id.1 < 4294967296 ∧ h.tuple_id.2 < 256 ∧ h.flags < 256 ∧
  h.user_data_start < 256 ∧
  (∀ i, h.null_bitmap i < 256) ∧
  (∀ i, null_bitmap_size columnCount ≤ i → h.null_bitmap i = 0) ∧
  (has_null h.flags = false → ∀ i, h.null_bitmap i = 0)

/-- Result codes for attempts to update/delete a tuple (table.rs lines 31-44). -/
inductive HeapTupleUpdateResult where
  | Ok
  | SelfUpdated
  | Deleted
  | Updated (tupleId : Nat × Nat)
  | BeingModified
  deriving DecidableEq, Repr

/-- Models `heap_tuple_satisfies_update` (table.rs lines 46-83).  `none` models
the `_ => unreachable!()` arm, reached when the deleter's status decodes to
`Invalid`. -/
def heap_tuple_satisfies_update (ps : Nat) (m : TransactionManagerState)
    (header : HeapTupleHeader) (originalId : Nat × Nat) (t : Transaction) :
    Option HeapTupleUpdateResult :=
  (get_transaction_status ps m header.insert_tid).bind fun s =>
    if s ≠ TransactionStatus.Committed then some .Ok
    else if header.delete_tid = 0 then some .Ok
    else if header.delete_tid = t.tid then some .SelfUpdated
    else
      (get_transaction_status ps m header.delete_tid).bind fun s2 =>
        match s2 with
        | .Committed =>
          if header.tuple_id = originalId then some .Deleted
          else some (.Updated header.tuple_id)
        | .Aborted => some .Ok
        | .InProgress => some .BeingModified
        | .Invalid => none

/-- Formalisation of claim C2's classification, written from the claim's
words.  The claim does not assign a result to an `Invalid` deleter status (the
source panics there), so that arm is `none` on both sides. -/
def heap_tuple_satisfies_update_claim (ps : Nat) (m : TransactionManagerState)
    (header : HeapTupleHeader) (originalId : Nat × Nat) (t : Transaction) :
    Option HeapTupleUpdateResult :=
  if getStatusD ps m header.insert_tid ≠ TransactionStatus.Committed then some .Ok
  else if header.delete_tid = 0 then some .Ok
  else if header.delete_tid = t.tid then some .SelfUpdated
  else
    match getStatusD ps m header.delete_tid with
    | .Committed =>
      if header.tuple_id = originalId then some .Deleted
      else some (.Updated header.tuple_id)
    | .Aborted => some .Ok
    | .InProgress => some .BeingModified
    | .Invalid => none

/-- A stored heap tuple: its parsed header and its parsed payload values
(payload contents are irrelevant to visibility and update classification, so
values are abstracted to naturals). -/
structure Row where
  hdr : HeapTupleHeader
  values : List Nat

/-- Models `Table::fetch_tuple` (table.rs lines 225-234) over a table state
given as the list of its pages (page `p` is entry `p - 1`), each page the list
of its slots' tuples.  Note the signature: no transaction and no visibility
check — the slot's stored tuple is parsed and returned as-is. -/
def fetch_tuple (table : List (List Row)) (tupleId : Nat × Nat) : Option Row :=
  (table.get? (tupleId.1 - 1)).bind fun page => page.get? tupleId.2

/-- The (total) visibility verdict of `is_tuple_visible`; by totality of
`get_transaction_status` the `Option` layer never yields `none`. -/
def tuple_visible (ps : Nat) (m : TransactionManagerState) (t : Transaction) (r : Row) : Bool :=
  (is_tuple_visible ps m t r.hdr.insert_tid r.hdr.command_id r.hdr.delete_tid).getD false

/-- One page's contribution to a scan: models the slot loop of
`HeapTupleIterator::fetch_next_tuple` (table.rs lines 104-134) on page
`pageNo` — every slot's header is parsed and the tuple is yielded with its
tuple id iff `is_tuple_visible` accepts it. -/
def page_visible_rows (ps : Nat) (m : TransactionManagerState) (t : Transaction)
    (pageNo : Nat) (page : List Row) : List ((Nat × Nat) × Row) :=
  (page.enum.filter (fun p => tuple_visible ps m t p.2)).map
    (fun p => ((pageNo, p.1), p.2))

/-- Models a full scan by `HeapTupleIterator`: pages 1 through the highest page
in order, each page's slots in order, visible tuples only. -/
def scan_visible (ps : Nat) (m : TransactionManagerState) (t : Transaction)
    (table : List (List Row)) : List ((Nat × Nat) × Row) :=
  (table.enum.map (fun p => page_visible_rows ps m t (p.1 + 1) p.2)).flatten

/-- Models the classification arm of `Table::update_tuple` (table.rs lines
276-285): parse the header at the target slot, classify via
`heap_tuple_satisfies_update`, and on `SelfUpdated`, `Deleted` or `Updated`
return that result immediately — the heap is handed back untouched, exactly as
the source returns before any page write.  The `Ok` arm (which writes a new
version) and the `BeingModified` arm (which blocks on another transaction)
continue past this classification and are outside this sequential model, so
they are mapped to `none`. -/
def update_tuple_classify (ps : Nat) (m : TransactionManagerState)
    (table : List (List Row)) (tupleId : Nat × Nat) (t : Transaction) :
    Option (HeapTupleUpdateResult × List (List Row)) :=
  (fetch_tuple table tupleId).bind fun row =>
    (heap_tuple_satisfies_update ps m row.hdr tupleId t).bind fun r =>
      match r with
      | .SelfUpdated => some (r, table)
      | .Deleted => some (r, table)
      | .Updated _ => some (r, table)
      | _ => none

/-- Witness manager state for the scan/fetch contrast: tid 2 aborted (log byte
`0b100000`), tid 3 the reader's own tid. -/
def mgrAborted2 : TransactionManagerState :=
  { aliveTids := fun _ => false
    nextTid := 4
    highestPageNo := 1
    logPage := fun _ _ => 32 }

/-- Witness reader transaction with tid 3 and an empty snapshot. -/
def txReader : Transaction :=
  { tid := 3
    isolationLevel := .ReadCommitted
    tidMax := 4
    commandId := 1
    autoCommit := false
    endState := .None
    aliveTids := fun _ => false }

/-- Witness row inserted by the aborted tid 2, never deleted. -/
def rowAbortedInsert : Row :=
  { hdr :=
      { insert_tid := 2
        delete_tid := 0
        command_id := 0
        tuple_id := (1, 0)
        flags := 0
        user_data_start := 16
        null_bitmap := fun _ => 0
        column_count := 1 }
    values := [42] }

/-- Witness manager state for the update-chain scenario: tids 2 and 3 are both
committed (log byte `0b11110000`). -/
def mgrCommitted23 : TransactionManagerState :=
  { aliveTids := fun _ => false
    nextTid := 4
    highestPageNo := 1
    logPage := fun _ _ => 240 }

/-- Witness transaction attempting the second update (tid 4). -/
def txUpdater : Transaction :=
  { tid := 4
    isolationLevel := .ReadCommitted
    tidMax := 5
    commandId := 1
    autoCommit := false
    endState := .None
    aliveTids := fun _ => false }

/-- Witness old tuple version at `(1, 0)`: inserted by committed tid 2, its
delete_tid set to committed tid 3, forward pointer to the replacement at
`(1, 1)`. -/
def rowOldVersion : Row :=
  { hdr :=
      { insert_tid := 2
        delete_tid := 3
        command_id := 0
        tuple_id := (1, 1)
        flags := 0
        user_data_start := 16
        null_bitmap := fun _ => 0
        column_count := 1 }
    values := [17] }

/-- Witness replacement tuple version at `(1, 1)`, inserted by committed
tid 3. -/
def rowNewVersion : Row :=
  { hdr :=
      { insert_tid := 3
        delete_tid := 0
        command_id := 0
        tuple_id := (1, 1)
        flags := 0
        user_data_start := 16
        null_bitmap := fun _ => 0
        column_count := 1 }
    values := [21] }

/-- Witness header with nulls for the serialization roundtrip: 9 columns, so a
2-byte null bitmap. -/
def hdrWithNulls : HeapTupleHeader :=
  { insert_tid := 70000
    delete_tid := 0
    command_id := 3
    tuple_id := (1, 0)
    flags := 1
    user_data_start := 18
    null_bitmap := fun i => if i = 0 then 5 else if i = 1 then 1 else 0
    column_count := 9 }

/- Theorems below, helper lemmas first. -/

theorem fromBits_and_three_isSome (b : Nat) : (TransactionStatus.fromBits (b &&& 3)).isSome := by
  have h3 : b &&& 3 = b % 4 := Nat.and_pow_two_sub_one_eq_mod b 2
  have h4 : b % 4 < 4 := Nat.mod_lt _ (by decide)
  rw [h3]
  set x := b % 4 with hx
  interval_cases x <;> rfl

theorem get_transaction_status_isSome (ps : Nat) (m : TransactionManagerState) (tid : Nat) :
    (get_transaction_status ps m tid).isSome := by
  unfold get_transaction_status
  split
  · rfl
  · split
    · rfl
    · exact fromBits_and_three_isSome _

theorem get_transaction_status_eq_some (ps : Nat) (m : TransactionManagerState) (tid : Nat) :
    get_transaction_status ps m tid = some (getStatusD ps m tid) := by
  have h := get_transaction_status_isSome ps m tid
  unfold getStatusD
  cases hs : get_transaction_status ps m tid with
  | none => rw [hs] at h; cases h
  | some s => rfl

theorem fromBits_shift_and (b k : Nat) :
    TransactionStatus.fromBits ((b >>> k) &&& 3) =
      some (match b / 2 ^ k % 4 with
            | 0 => TransactionStatus.Invalid
            | 1 => TransactionStatus.InProgress
            | 2 => TransactionStatus.Aborted
            | _ => TransactionStatus.Committed) := by
  rw [Nat.shiftRight_eq_div_pow]
  have h3 : b / 2 ^ k &&& 3 = b / 2 ^ k % 4 := Nat.and_pow_two_sub_one_eq_mod _ 2
  rw [h3]
  have h4 : b / 2 ^ k % 4 < 4 := Nat.mod_lt _ (by decide)
  set x := b / 2 ^ k % 4 with hx
  interval_cases x <;> rfl

theorem get_status_claim_eq (ps : Nat) (m : TransactionManagerState) (tid : Nat) :
    get_transaction_status ps m tid = some (get_status_claim ps m tid) := by
  unfold get_transaction_status get_status_claim logByte
  split
  · rfl
  · split
    · rfl
    · exact fromBits_shift_and _ _

/-- C3: `get_transaction_status` returns `InProgress` if the tid is in the
global alive set, otherwise `Invalid` if `tid ≥ next_tid`, otherwise the status
decoded from the two bits at bit offset `(tid mod 4)*2` of byte
`(tid div 4) mod PAGE_SIZE` of log page `(tid div 4) div PAGE_SIZE + 1`, where a
lazily allocated (not yet existing) page is zero-filled and yields `Invalid`. -/
theorem get_transaction_status_matches_claim (ps : Nat) (m : TransactionManagerState)
    (tid : Nat) : get_transaction_status ps m tid = some (get_status_claim ps m tid) :=
  get_status_claim_eq ps m tid

/-- C10: status decoding is total.  The status byte is masked with `0b11`
before the `From<u8>` conversion, so the conversion's `unreachable!()` branch
(modelled by `none`) is never taken: for every manager state, page content and
tid, `get_transaction_status` produces one of the four statuses. -/
theorem get_transaction_status_never_panics (ps : Nat) (m : TransactionManagerState)
    (tid : Nat) : (get_transaction_status ps m tid).isSome := by
  unfold get_transaction_status
  split
  · rfl
  · split
    · rfl
    · exact fromBits_and_three_isSome _

/-- Counterexample to C5: `get_transaction_status` has no special case for the
bootstrap tid 1.  In a state where tid 1 is not alive and `next_tid = 2` but the
log bytes for tid 1 are zero (as they are when the bootstrap transaction was
never committed), the lookup returns `Invalid`, not `Committed`. -/
theorem bootstrap_status_zero_log_invalid :
    mgrZeroLog.aliveTids 1 = false ∧ 2 ≤ mgrZeroLog.nextTid ∧
    get_transaction_status 4096 mgrZeroLog 1 = some TransactionStatus.Invalid ∧
    get_transaction_status 4096 mgrZeroLog 1 ≠ some TransactionStatus.Committed := by
  refine ⟨rfl, by decide, by decide, by decide⟩

/-- C5 (amended): a status lookup for the bootstrap tid 1 returns `Committed`
exactly when the log records it: for every manager state in which tid 1 is not
alive, `next_tid ≥ 2`, log page 1 is allocated, and bits 2-3 of byte 0 of log
page 1 hold `0b11` (as written when the bootstrap transaction commits),
`get_transaction_status 1` returns `Committed`. -/
theorem bootstrap_status_committed (ps : Nat) (m : TransactionManagerState)
    (halive : m.aliveTids 1 = false) (hnext : 2 ≤ m.nextTid)
    (hpage : 1 ≤ m.highestPageNo) (hbits : m.logPage 1 0 / 4 % 4 = 3) :
    get_transaction_status ps m 1 = some TransactionStatus.Committed := by
  rw [get_status_claim_eq]
  unfold get_status_claim
  rw [halive]
  have h1 : (1 : Nat) / 4 / ps = 0 := by
    have : (1 : Nat) / 4 = 0 := by decide
    rw [this, Nat.zero_div]
  have h2 : (1 : Nat) / 4 % ps = 0 := by
    have : (1 : Nat) / 4 = 0 := by decide
    rw [this, Nat.zero_mod]
  simp only [h1, h2, Bool.false_eq_true, if_false]
  have hnot : ¬ m.nextTid ≤ 1 := by omega
  rw [if_neg hnot]
  have hnlt : ¬ m.highestPageNo < 0 + 1 := by omega
  rw [if_neg hnlt]
  have hk : (1 : Nat) % 4 * 2 = 2 := by decide
  rw [hk]
  have hpow : (2 : Nat) ^ 2 = 4 := by decide
  rw [hpow, hbits]

theorem bootstrap_status_committed_witness :
    get_transaction_status 4096 mgrBootstrapCommitted 1 = some TransactionStatus.Committed :=
  bootstrap_status_committed 4096 mgrBootstrapCommitted rfl (by decide) (by decide) (by decide)

/-- C4: the code is wrong.  `load_transaction_log` adds the raw byte offset to
`tid_offset` instead of four times the byte offset, although each byte holds
four tids.  On a log whose last page is page 1 with bytes `[0, 0b11]` — i.e.
exactly tid 4 has status `Committed`, as `get_transaction_status` itself decodes
(third conjunct) — load sets `next_tid` to 2 instead of `4 + 1 = 5`, so tids
2-4 would be handed out again.  The S1 consequence of the claim does hold
(fourth conjunct): after the S1 scenario the last page is page 2 with byte 0
non-zero in its top 2-bit group, and load yields `4*PAGE_SIZE + 4` there, which
is why the repository's own test passes. -/
theorem load_transaction_log_bug :
    load_next_tid 4096 1 [0, 3] = 2 ∧
    highest_status_tid 4096 1 [0, 3] = 4 ∧
    get_transaction_status 4096
      { aliveTids := fun _ => false, nextTid := 5, highestPageNo := 1,
        logPage := fun _ i => [0, 3].getD i 0 } 4 = some TransactionStatus.Committed ∧
    load_next_tid 4096 2 [255] = 4 * 4096 + 4 := by
  refine ⟨by decide, by decide, by decide, by decide⟩

/-- C6: the transaction end-state machine admits exactly the specified
transitions.  `commit` succeeds only from `None` and sets the end state to
`Committed`; `abort` succeeds only from `None` or `ExpectedRollback` and sets
it to `Aborted`; every other attempt returns an error and hands back the
transaction with the end state and all other fields unchanged. -/
theorem transaction_end_state_machine (t : Transaction) (mgrOk : Bool) :
    (t.endState = TransactionEnd.None →
      Transaction.commit true t = ({ t with endState := .Committed }, none)) ∧
    (t.endState ≠ TransactionEnd.None →
      ∃ e, Transaction.commit mgrOk t = (t, some e)) ∧
    ((t.endState = TransactionEnd.None ∨ t.endState = TransactionEnd.ExpectedRollback) →
      Transaction.abort true t = ({ t with endState := .Aborted }, none)) ∧
    ((t.endState = TransactionEnd.Committed ∨ t.endState = TransactionEnd.Aborted) →
      ∃ e, Transaction.abort mgrOk t = (t, some e)) := by
  refine ⟨?_, ?_, ?_, ?_⟩
  · intro h
    unfold Transaction.commit
    rw [h]
    rfl
  · intro h
    unfold Transaction.commit
    cases he : t.endState with
    | None => exact absurd he h
    | Committed => exact ⟨_, rfl⟩
    | Aborted => exact ⟨_, rfl⟩
    | ExpectedRollback => exact ⟨_, rfl⟩
  · intro h
    unfold Transaction.abort
    rcases h with h | h <;> rw [h] <;> rfl
  · intro h
    unfold Transaction.abort
    rcases h with h | h <;> rw [h]
    · exact ⟨_, rfl⟩
    · exact ⟨_, rfl⟩

theorem transaction_end_state_machine_witness :
    Transaction.commit true txFresh = ({ txFresh with endState := .Committed }, none) ∧
    (∃ e, Transaction.commit true txCommitted = (txCommitted, some e)) ∧
    Transaction.abort true txFresh = ({ txFresh with endState := .Aborted }, none) ∧
    (∃ e, Transaction.abort true txCommitted = (txCommitted, some e)) :=
  ⟨(transaction_end_state_machine txFresh true).1 rfl,
   (transaction_end_state_machine txCommitted true).2.1 (by decide),
   (transaction_end_state_machine txFresh true).2.2.1 (Or.inl rfl),
   (transaction_end_state_machine txCommitted true).2.2.2 (Or.inl rfl)⟩

theorem refresh_iter_succ_none (m : TransactionManagerState) (t : Transaction)
    (n : Nat) (h : (refresh_iter m t n).2 = none) :
    refresh_iter m t (n + 1) = refresh_transaction m (refresh_iter m t n).1 := by
  cases hp : refresh_iter m t n with
  | mk t' e =>
    rw [hp] at h
    simp only at h
    subst h
    unfold refresh_iter
    rw [hp]

theorem refresh_iter_le (m : TransactionManagerState) (t : Transaction)
    (h0 : t.commandId = 0) :
    ∀ n, n ≤ 255 → (refresh_iter m t n).2 = none ∧ (refresh_iter m t n).1.commandId = n := by
  intro n
  induction n with
  | zero => intro _; exact ⟨rfl, h0⟩
  | succ k ih =>
    intro hk
    have hk' : k ≤ 255 := Nat.le_of_succ_le hk
    obtain ⟨he, hc⟩ := ih hk'
    rw [refresh_iter_succ_none m t k he]
    unfold refresh_transaction
    rw [if_neg (by rw [hc]; omega)]
    constructor
    · dsimp only
      split <;> rfl
    · dsimp only
      split <;> simp [hc]

/-- C7: starting from `command_id = 0`, each of the first 255
`refresh_transaction` calls succeeds and increments `command_id` (so after the
`n`-th call it equals `n`); the 256th call returns the too-many-statements
error, and on that error the whole transaction — `command_id` and the snapshot
(`alive_tids`, `tid_max`) included — is exactly the state left by the 255th
call. -/
theorem refresh_transaction_statement_limit (m : TransactionManagerState)
    (t : Transaction) (h0 : t.commandId = 0) :
    (∀ n, n ≤ 255 →
      (refresh_iter m t n).2 = none ∧ (refresh_iter m t n).1.commandId = n) ∧
    (refresh_iter m t 256).2 = some TxError.tooManyCommands ∧
    (refresh_iter m t 256).1 = (refresh_iter m t 255).1 := by
  obtain ⟨he, hc⟩ := refresh_iter_le m t h0 255 (Nat.le_refl _)
  have hs : refresh_iter m t 256 = refresh_transaction m (refresh_iter m t 255).1 :=
    refresh_iter_succ_none m t 255 he
  refine ⟨refresh_iter_le m t h0, ?_, ?_⟩
  · rw [hs]
    unfold refresh_transaction
    rw [if_pos hc]
  · rw [hs]
    unfold refresh_transaction
    rw [if_pos hc]

theorem refresh_transaction_statement_limit_witness :
    (refresh_iter mgrZeroLog txFresh 255).2 = none ∧
    (refresh_iter mgrZeroLog txFresh 256).2 = some TxError.tooManyCommands :=
  ⟨((refresh_transaction_statement_limit mgrZeroLog txFresh rfl).1 255 (by decide)).1,
   (refresh_transaction_statement_limit mgrZeroLog txFresh rfl).2.1⟩

/-- C1: `Transaction::is_tuple_visible` implements exactly the claim's MVCC
case analysis, for every transaction, manager state, page size and tuple
header. -/
theorem is_tuple_visible_matches_claim (ps : Nat) (m : TransactionManagerState)
    (t : Transaction) (insertTid commandId deleteTid : Nat) :
    is_tuple_visible ps m t insertTid commandId deleteTid =
      some (is_visible_claim ps m t insertTid commandId deleteTid) := by
  unfold is_tuple_visible is_visible_claim
  split
  · rfl
  · simp only [get_transaction_status_eq_some, Option.some_bind]
    generalize getStatusD ps m insertTid = s
    generalize getStatusD ps m deleteTid = s2
    cases s with
    | Invalid => rfl
    | Aborted => rfl
    | InProgress =>
      by_cases h : insertTid = t.tid
      · simp [h]
      · simp [h]
    | Committed =>
      by_cases ha : t.aliveTids insertTid = true
      · simp [ha]
      · by_cases hd : deleteTid = 0 ∨ t.tidMax ≤ deleteTid
        · simp [ha, hd]
        · cases s2 <;> simp [ha, hd]

/-- C2: `heap_tuple_satisfies_update` classifies exactly as the claim states
(first conjunct, an equality with the claim-shaped classification for every
header, original tuple id and transaction), and in particular updating a tuple
id whose version was already replaced by a committed update returns
`Updated` pointing at the replacement with the heap handed back unmodified
(second conjunct, about the early-return arm of `Table::update_tuple`). -/
theorem heap_tuple_satisfies_update_matches_claim (ps : Nat)
    (m : TransactionManagerState) (t : Transaction) :
    (∀ header originalId,
      heap_tuple_satisfies_update ps m header originalId t =
        heap_tuple_satisfies_update_claim ps m header originalId t) ∧
    (∀ table tupleId ptr row,
      fetch_tuple table tupleId = some row →
      heap_tuple_satisfies_update ps m row.hdr tupleId t =
        some (HeapTupleUpdateResult.Updated ptr) →
      update_tuple_classify ps m table tupleId t =
        some (HeapTupleUpdateResult.Updated ptr, table)) := by
  constructor
  · intro header originalId
    unfold heap_tuple_satisfies_update heap_tuple_satisfies_update_claim
    simp only [get_transaction_status_eq_some, Option.some_bind]
  · intro table tupleId ptr row hf hs
    unfold update_tuple_classify
    rw [hf, Option.some_bind, hs, Option.some_bind]

theorem heap_tuple_satisfies_update_matches_claim_witness :
    update_tuple_classify 4096 mgrCommitted23 [[rowOldVersion, rowNewVersion]] (1, 0) txUpdater =
      some (HeapTupleUpdateResult.Updated (1, 1), [[rowOldVersion, rowNewVersion]]) :=
  (heap_tuple_satisfies_update_matches_claim 4096 mgrCommitted23 txUpdater).2
    [[rowOldVersion, rowNewVersion]] (1, 0) (1, 1) rowOldVersion rfl (by decide)

theorem serialize_from_bytes_roundtrip (cc : Nat) (h : HeapTupleHeader) (hwf : h.wf cc) :
    HeapTupleHeader.from_bytes h.serialize cc = h := by
  obtain ⟨hcc, hcc1, hins, hdel, hcmd, hpg, hslot, hfl, huds, hbyte, hout, hnonull⟩ := hwf
  refine HeapTupleHeader.ext ?_ ?_ ?_ ?_ ?_ ?_ ?_ ?_
  · show h.insert_tid % 256 + 256 * (h.insert_tid / 256 % 256) +
      65536 * (h.insert_tid / 65536 % 256) + 16777216 * (h.insert_tid / 16777216 % 256) =
        h.insert_tid
    omega
  · show h.delete_tid % 256 + 256 * (h.delete_tid / 256 % 256) +
      65536 * (h.delete_tid / 65536 % 256) + 16777216 * (h.delete_tid / 16777216 % 256) =
        h.delete_tid
    omega
  · rfl
  · have hfst : deU32 h.serialize 9 = h.tuple_id.1 := by
      show h.tuple_id.1 % 256 + 256 * (h.tuple_id.1 / 256 % 256) +
        65536 * (h.tuple_id.1 / 65536 % 256) + 16777216 * (h.tuple_id.1 / 16777216 % 256) =
          h.tuple_id.1
      omega
    show (deU32 h.serialize 9, h.tuple_id.2) = h.tuple_id
    rw [hfst]
  · rfl
  · rfl
  · funext i
    show (if has_null (h.serialize.getD 14 0) ∧ i < null_bitmap_size cc
          then h.serialize.getD (16 + i) 0 else 0) = h.null_bitmap i
    rw [show h.serialize.getD 14 0 = h.flags from rfl]
    cases hn : has_null h.flags with
    | false =>
      rw [if_neg (by simp [hn])]
      exact (hnonull hn i).symm
    | true =>
      have hser : h.serialize.getD (16 + i) 0 =
          ((List.range (null_bitmap_size h.column_count)).map h.null_bitmap).getD i 0 := by
        unfold HeapTupleHeader.serialize
        rw [hn, if_pos rfl, Nat.add_comm 16 i]
        rfl
      by_cases hi : i < null_bitmap_size cc
      · rw [if_pos ⟨rfl, hi⟩, hser, hcc]
        rw [List.getD_eq_getElem?_getD, List.getElem?_map, List.getElem?_range hi]
        rfl
      · rw [if_neg (by intro hcon; exact hi hcon.2)]
        exact (hout i (by omega)).symm
  · exact hcc.symm

/-- C8: header serialize/parse is a bijection on well-formed headers for a
given column count (the column count is a parameter of parsing, as in the
source): parsing a serialized header with the same column count yields the
header back, and two well-formed headers with equal serializations are equal,
for every column count `≥ 1` and every null-bitmap configuration. -/
theorem header_serialize_parse_bijection (cc : Nat) (h1 h2 : HeapTupleHeader)
    (w1 : h1.wf cc) (w2 : h2.wf cc) :
    HeapTupleHeader.from_bytes h1.serialize cc = h1 ∧
    (h1.serialize = h2.serialize → h1 = h2) := by
  refine ⟨serialize_from_bytes_roundtrip cc h1 w1, fun he => ?_⟩
  rw [← serialize_from_bytes_roundtrip cc h1 w1, ← serialize_from_bytes_roundtrip cc h2 w2, he]

theorem header_serialize_parse_bijection_witness :
    HeapTupleHeader.from_bytes hdrWithNulls.serialize 9 = hdrWithNulls :=
  (header_serialize_parse_bijection 9 hdrWithNulls hdrWithNulls
    (by
      refine ⟨rfl, by decide, by decide, by decide, by decide, by decide, by decide,
        by decide, by decide, ?_, ?_, ?_⟩
      · intro i
        show (if i = 0 then 5 else if i = 1 then 1 else 0) < 256
        split
        · decide
        · split
          · decide
          · decide
      · intro i hi
        have h2 : (2 : Nat) ≤ i := hi
        show (if i = 0 then 5 else if i = 1 then 1 else 0) = 0
        rw [if_neg (by omega), if_neg (by omega)]
      · intro hf
        exact absurd hf (by decide))
    (by
      refine ⟨rfl, by decide, by decide, by decide, by decide, by decide, by decide,
        by decide, by decide, ?_, ?_, ?_⟩
      · intro i
        show (if i = 0 then 5 else if i = 1 then 1 else 0) < 256
        split
        · decide
        · split
          · decide
          · decide
      · intro i hi
        have h2 : (2 : Nat) ≤ i := hi
        show (if i = 0 then 5 else if i = 1 then 1 else 0) = 0
        rw [if_neg (by omega), if_neg (by omega)]
      · intro hf
        exact absurd hf (by decide))).1

theorem is_tuple_visible_isSome (ps : Nat) (m : TransactionManagerState) (t : Transaction)
    (i c d : Nat) : (is_tuple_visible ps m t i c d).isSome := by
  unfold is_tuple_visible
  split
  · rfl
  · rw [get_transaction_status_eq_some, Option.some_bind]
    generalize getStatusD ps m i = s
    cases s with
    | Invalid => rfl
    | Aborted => rfl
    | InProgress =>
      dsimp only
      split <;> rfl
    | Committed =>
      dsimp only
      split
      · rfl
      · split
        · rfl
        · rw [get_transaction_status_eq_some, Option.some_bind]
          generalize getStatusD ps m d = s2
          cases s2 <;> rfl

theorem is_tuple_visible_eq_some (ps : Nat) (m : TransactionManagerState) (t : Transaction)
    (r : Row) :
    is_tuple_visible ps m t r.hdr.insert_tid r.hdr.command_id r.hdr.delete_tid =
      some (tuple_visible ps m t r) := by
  have hv := is_tuple_visible_isSome ps m t r.hdr.insert_tid r.hdr.command_id r.hdr.delete_tid
  unfold tuple_visible
  cases hs : is_tuple_visible ps m t r.hdr.insert_tid r.hdr.command_id r.hdr.delete_tid with
  | none => rw [hs] at hv; cases hv
  | some b => rfl

theorem mem_page_visible_rows (ps : Nat) (m : TransactionManagerState) (t : Transaction)
    (n : Nat) (pg : List Row) (x : (Nat × Nat) × Row) :
    x ∈ page_visible_rows ps m t n pg ↔
      x.1.1 = n ∧ pg.get? x.1.2 = some x.2 ∧ tuple_visible ps m t x.2 = true := by
  unfold page_visible_rows
  rw [List.mem_map]
  constructor
  · rintro ⟨q, hq, rfl⟩
    rw [List.mem_filter] at hq
    obtain ⟨hqm, hqv⟩ := hq
    have hg : pg[q.1]? = some q.2 := List.mem_enum_iff_getElem?.mp hqm
    refine ⟨rfl, ?_, hqv⟩
    rw [List.get?_eq_getElem?]
    exact hg
  · rintro ⟨h1, h2, h3⟩
    refine ⟨(x.1.2, x.2), ?_, ?_⟩
    · rw [List.mem_filter]
      refine ⟨List.mem_enum_iff_getElem?.mpr ?_, h3⟩
      rw [← List.get?_eq_getElem?]
      exact h2
    · obtain ⟨⟨a, b⟩, r⟩ := x
      simp only at h1
      rw [h1]

theorem mem_scan_visible_iff (ps : Nat) (m : TransactionManagerState) (t : Transaction)
    (table : List (List Row)) (x : (Nat × Nat) × Row) :
    x ∈ scan_visible ps m t table ↔
      ∃ pg, 1 ≤ x.1.1 ∧ table.get? (x.1.1 - 1) = some pg ∧
        pg.get? x.1.2 = some x.2 ∧ tuple_visible ps m t x.2 = true := by
  unfold scan_visible
  rw [List.mem_flatten]
  constructor
  · rintro ⟨l, hl, hx⟩
    rw [List.mem_map] at hl
    obtain ⟨p, hp, rfl⟩ := hl
    rw [mem_page_visible_rows] at hx
    obtain ⟨h1, h2, h3⟩ := hx
    have hp' : table[p.1]? = some p.2 := List.mem_enum_iff_getElem?.mp hp
    refine ⟨p.2, by omega, ?_, h2, h3⟩
    rw [List.get?_eq_getElem?, h1, Nat.add_sub_cancel]
    exact hp'
  · rintro ⟨pg, h0, hpg, h2, h3⟩
    refine ⟨page_visible_rows ps m t ((x.1.1 - 1) + 1) pg, ?_, ?_⟩
    · rw [List.mem_map]
      refine ⟨(x.1.1 - 1, pg), List.mem_enum_iff_getElem?.mpr ?_, rfl⟩
      rw [← List.get?_eq_getElem?]
      exact hpg
    · rw [mem_page_visible_rows]
      exact ⟨by omega, h2, h3⟩

/-- C9: `Table::fetch_tuple` applies no visibility filtering.  Whenever a tuple
id `(pageNo, slot)` names a stored tuple, `fetch_tuple` — which takes no
transaction at all — returns that stored tuple, whatever the manager state or
any transaction's snapshot says about it; the scan iterator, in contrast,
yields it at its tuple id exactly when `is_tuple_visible` accepts it, so a
tuple invisible to a transaction (e.g. one whose inserter aborted or is still
in progress, or one deleted by a committed transaction) is fetched but not
scanned. -/
theorem fetch_tuple_ignores_visibility (ps : Nat) (m : TransactionManagerState)
    (t : Transaction) (table : List (List Row)) (pageNo slot : Nat) (row : Row)
    (hp : 1 ≤ pageNo) (hf : fetch_tuple table (pageNo, slot) = some row) :
    ((pageNo, slot), row) ∈ scan_visible ps m t table ↔
      tuple_visible ps m t row = true := by
  unfold fetch_tuple at hf
  cases hpg : table.get? ((pageNo, slot).1 - 1) with
  | none => rw [hpg] at hf; cases hf
  | some pg =>
    rw [hpg, Option.some_bind] at hf
    rw [mem_scan_visible_iff]
    constructor
    · rintro ⟨pg', _, hpg', h2, h3⟩
      exact h3
    · intro hv
      exact ⟨pg, hp, hpg, hf, hv⟩

theorem fetch_tuple_ignores_visibility_witness :
    fetch_tuple [[rowAbortedInsert]] (1, 0) = some rowAbortedInsert ∧
    ((1, 0), rowAbortedInsert) ∉ scan_visible 4096 mgrAborted2 txReader [[rowAbortedInsert]] := by
  refine ⟨rfl, fun hmem => ?_⟩
  have hv := (fetch_tuple_ignores_visibility 4096 mgrAborted2 txReader [[rowAbortedInsert]]
    1 0 rowAbortedInsert (by decide) rfl).mp hmem
  exact absurd hv (by decide)

end Erdb
